import Mathlib

/-
Verification of the Cthulhu closable channel (`util::chan<T>`, shared/util/chan.hpp)
and the asynchronous logger built on it (`logger::Logger`, shared/logger/logger.hpp,
with the Go prototype shared/logger/logger.go).

The channel's methods each execute atomically under `chanMutex`; the embedding
therefore models each method body as a function on the protected state
(queue, closed flag, waiting-reader count).  Blocking inside `get()` is made
explicit by a `GetOutcome` that either returns a `(value, ok)` pair or reports
that the caller would suspend on `chanCond`.  A separate small-step system
(`util.Sys`/`util.Step`) models several reader threads blocked inside `get()`
together with the thread executing `close()`, for the close-rendezvous claims.
-/

namespace util

/-- State of `util::chan<T>` (shared/util/chan.hpp): the fields protected by
`chanMutex`: the FIFO `chanQueue` (std::queue, modelled front-first), the
`isChanShut` flag and `readerThreadCount`, the count of waiting readers. -/
structure chan (T : Type) where
  chanQueue : List T
  isChanShut : Bool
  readerThreadCount : Int
deriving Repr, DecidableEq

/-- A freshly constructed channel: empty queue, open, no waiting reader. -/
def chan.new (T : Type) : chan T :=
  { chanQueue := [], isChanShut := false, readerThreadCount := 0 }

/-- `chan::push`: under the lock, if the channel is shut do nothing; otherwise
append the value to the queue (and `notify_one`, which has no effect on the
protected state itself). -/
def chan.push {T : Type} (c : chan T) (val : T) : chan T :=
  if c.isChanShut then c
  else { c with chanQueue := c.chanQueue ++ [val] }

/-- Result of one call to `chan::get`: either the method returns a
`pair<T, bool>`, or the calling thread suspends on `chanCond.wait` (queue empty,
channel open) after incrementing `readerThreadCount`. -/
inductive GetOutcome (T : Type) where
  | ret (val : T) (ok : Bool)
  | block
deriving Repr, DecidableEq

/-- `chan::get`, the non-suspending paths: if shut, return `(T(), false)` at
once; if the queue is non-empty, `chanCond.wait`'s predicate holds immediately
(the paired increment/decrement of `readerThreadCount` cancels), so pop the
front and return it with `ok = true`; otherwise the thread increments
`readerThreadCount` and blocks (`GetOutcome.block`).  The wake-up of a blocked
reader is the `Step.wakeShut`/`Step.wakeVal` transition of `util.Step` below. -/
def chan.get {T : Type} [Inhabited T] (c : chan T) : GetOutcome T × chan T :=
  if c.isChanShut then (GetOutcome.ret default false, c)
  else
    match c.chanQueue with
    | [] => (GetOutcome.block, { c with readerThreadCount := c.readerThreadCount + 1 })
    | el :: rest => (GetOutcome.ret el true, { c with chanQueue := rest })

/-- `chan::close`, the state change it performs under the lock: if already shut
return (re-entry is a no-op); otherwise set `isChanShut` and `notify_all`.  The
subsequent `readerCond.wait` until `readerThreadCount <= 0` returns immediately
when no reader is blocked; the rendezvous with blocked readers is modelled by
`Step.closeFin` below. -/
def chan.close {T : Type} (c : chan T) : chan T :=
  if c.isChanShut then c else { c with isChanShut := true }

/-- `chan::isclosed`: reads the flag under the lock. -/
def chan.isclosed {T : Type} (c : chan T) : Bool :=
  c.isChanShut

/-- `chan::size`: returns 0 once shut, otherwise the queue length (an `int` in
the source). -/
def chan.size {T : Type} (c : chan T) : Int :=
  if c.isChanShut then 0 else (c.chanQueue.length : Int)

/-- A sequence of `push` calls, first element pushed first. -/
def chan.pushAll {T : Type} (c : chan T) (vals : List T) : chan T :=
  vals.foldl chan.push c

/-- `n` consecutive `get` calls by a single consumer: collect every returned
`(value, ok)` pair in call order; stop early only if a call would suspend. -/
def chan.getN {T : Type} [Inhabited T] : Nat → chan T → List (T × Bool) × chan T
  | 0, c => ([], c)
  | n + 1, c =>
    match chan.get c with
    | (GetOutcome.ret v ok, c1) =>
      let r := chan.getN n c1
      ((v, ok) :: r.1, r.2)
    | (GetOutcome.block, c1) => ([], c1)

/-- One channel operation, for stating properties over arbitrary call
sequences (`size` and `isclosed` do not mutate the state). -/
inductive Op (T : Type) where
  | push (val : T)
  | get
  | close
  | size
  | isclosed

/-- The state after one operation. -/
def chan.applyOp {T : Type} [Inhabited T] (c : chan T) : Op T → chan T
  | Op.push v => chan.push c v
  | Op.get => (chan.get c).2
  | Op.close => chan.close c
  | Op.size => c
  | Op.isclosed => c

/-- The state after a sequence of operations. -/
def chan.runOps {T : Type} [Inhabited T] (c : chan T) : List (Op T) → chan T
  | [] => c
  | op :: ops => chan.runOps (chan.applyOp c op) ops

/-- Status of one reader thread executing `chan::get`: still suspended on
`chanCond.wait` (and therefore counted in `readerThreadCount`), or returned
from `get` with its `(value, ok)` pair. -/
inductive RStatus (T : Type) where
  | blocked
  | ret (val : T) (ok : Bool)
deriving Repr

/-- Status of the thread executing `chan::close` after it has set `isChanShut`
and called `notify_all`: suspended on `readerCond.wait` until
`readerThreadCount <= 0`, or returned from `close`. -/
inductive CStatus where
  | waiting
  | done
deriving Repr, DecidableEq

/-- Whether a reader is still blocked. -/
def RStatus.isBlocked {T : Type} : RStatus T → Bool
  | RStatus.blocked => true
  | RStatus.ret _ _ => false

/-- The number of still-blocked readers. -/
def blockedCount {T : Type} (rs : List (RStatus T)) : Nat :=
  rs.countP RStatus.isBlocked

/-- A channel together with the reader threads currently inside `get` and the
thread inside `close`. -/
structure Sys (T : Type) where
  ch : chan T
  readers : List (RStatus T)
  closer : CStatus

/-- Interleaving semantics of the blocking parts of `chan::get` and
`chan::close`; each transition is one thread re-acquiring `chanMutex`.
`wakeShut`: a blocked reader wakes with the wait predicate satisfied by
`isChanShut`, decrements `readerThreadCount`, notifies `readerCond` and returns
`(T(), false)`.  `wakeVal`: a blocked reader wakes with the predicate satisfied
by a non-empty queue on an open channel, decrements the count, pops the front
and returns it with `ok = true`.  `closeFin`: the closing thread's
`readerCond.wait` predicate `readerThreadCount <= 0` holds, so `close`
returns. -/
inductive Step {T : Type} [Inhabited T] : Sys T → Sys T → Prop where
  | wakeShut (s : Sys T) (i : Nat)
      (h : s.readers[i]? = some RStatus.blocked)
      (hs : s.ch.isChanShut = true) :
      Step s { ch := { s.ch with readerThreadCount := s.ch.readerThreadCount - 1 },
               readers := s.readers.set i (RStatus.ret default false),
               closer := s.closer }
  | wakeVal (s : Sys T) (i : Nat) (v : T) (rest : List T)
      (h : s.readers[i]? = some RStatus.blocked)
      (hs : s.ch.isChanShut = false) (hq : s.ch.chanQueue = v :: rest) :
      Step s { ch := { s.ch with
                        chanQueue := rest
                        readerThreadCount := s.ch.readerThreadCount - 1 },
               readers := s.readers.set i (RStatus.ret v true),
               closer := s.closer }
  | closeFin (s : Sys T)
      (h : s.closer = CStatus.waiting)
      (hc : s.ch.readerThreadCount ≤ 0) :
      Step s { ch := s.ch, readers := s.readers, closer := CStatus.done }

/-- Invariant of the close rendezvous, holding from the moment `close` has set
`isChanShut` and woken the readers: the channel stays shut, the waiting-reader
count equals the number of still-blocked readers, every reader is either still
blocked or has returned `(T(), false)`, and once `close` has returned the
count had to be at most zero. -/
structure Inv {T : Type} [Inhabited T] (s : Sys T) : Prop where
  shut : s.ch.isChanShut = true
  count : s.ch.readerThreadCount = (blockedCount s.readers : Int)
  rstat : ∀ r ∈ s.readers, r = RStatus.blocked ∨ r = RStatus.ret default false
  closerDone : s.closer = CStatus.done → s.ch.readerThreadCount ≤ 0

/-- A transition never changes the number of reader threads being tracked. -/
theorem Step.readers_length {T : Type} [Inhabited T] {s s' : Sys T} (h : Step s s') :
    s'.readers.length = s.readers.length := by
  cases h <;> simp

/-- Waking a blocked reader lowers the blocked count by one. -/
theorem blockedCount_set_ret {T : Type} (rs : List (RStatus T)) (i : Nat) (v : T) (ok : Bool)
    (h : rs[i]? = some RStatus.blocked) :
    blockedCount (rs.set i (RStatus.ret v ok)) = blockedCount rs - 1 ∧ 1 ≤ blockedCount rs := by
  obtain ⟨hlt, hgi⟩ := List.getElem?_eq_some.mp h
  constructor
  · rw [blockedCount, blockedCount, List.countP_set _ _ _ _ hlt, hgi]
    simp [RStatus.isBlocked]
  · apply List.countP_pos_iff.mpr
    exact ⟨RStatus.blocked, hgi ▸ List.getElem_mem hlt, rfl⟩

/-- One transition preserves the rendezvous invariant. -/
theorem Inv.step {T : Type} [Inhabited T] {s s' : Sys T} (hinv : Inv s) (h : Step s s') :
    Inv s' := by
  cases h with
  | wakeShut i hi hs =>
    obtain ⟨hset, hone⟩ := blockedCount_set_ret s.readers i (default : T) false hi
    refine ⟨hinv.shut, ?_, ?_, ?_⟩
    · show s.ch.readerThreadCount - 1 = _
      rw [hinv.count, hset, Nat.cast_sub hone]
      simp
    · intro r hr
      rcases List.mem_or_eq_of_mem_set hr with hmem | heq
      · exact hinv.rstat r hmem
      · exact Or.inr heq
    · intro hdone
      have hle := hinv.closerDone hdone
      show s.ch.readerThreadCount - 1 ≤ 0
      omega
  | wakeVal i v rest hi hs hq =>
    exact absurd hinv.shut (by simp [hs])
  | closeFin h hc =>
    exact ⟨hinv.shut, hinv.count, hinv.rstat, fun _ => hc⟩

/-- The rendezvous invariant holds along every execution. -/
theorem Inv.reach {T : Type} [Inhabited T] {s s' : Sys T} (hinv : Inv s)
    (h : Relation.ReflTransGen Step s s') : Inv s' := by
  induction h with
  | refl => exact hinv
  | tail _ hstep ih => exact Inv.step ih hstep

/-- The number of tracked readers is constant along every execution. -/
theorem reach_readers_length {T : Type} [Inhabited T] {s s' : Sys T}
    (h : Relation.ReflTransGen Step s s') : s'.readers.length = s.readers.length := by
  induction h with
  | refl => rfl
  | tail _ hstep ih => exact (Step.readers_length hstep).trans ih

/-- A reader that has returned keeps its result: no transition touches it
again (each blocked reader is woken at most once). -/
theorem Step.ret_stable {T : Type} [Inhabited T] {s s' : Sys T} (h : Step s s')
    (i : Nat) (v : T) (ok : Bool) (hr : s.readers[i]? = some (RStatus.ret v ok)) :
    s'.readers[i]? = some (RStatus.ret v ok) := by
  cases h with
  | wakeShut j hj hs =>
    have hne : j ≠ i := by
      intro he
      rw [he, hr] at hj
      exact absurd (Option.some.inj hj) (by simp)
    show (s.readers.set j _)[i]? = _
    rw [List.getElem?_set_ne hne, hr]
  | wakeVal j v' rest hj hs hq =>
    have hne : j ≠ i := by
      intro he
      rw [he, hr] at hj
      exact absurd (Option.some.inj hj) (by simp)
    show (s.readers.set j _)[i]? = _
    rw [List.getElem?_set_ne hne, hr]
  | closeFin h hc => exact hr

/-- From any state satisfying the invariant in which `close` is still waiting,
an execution exists that wakes every blocked reader and lets `close` return. -/
theorem exists_done_run {T : Type} [Inhabited T] :
    ∀ (n : Nat) (s : Sys T), Inv s → s.closer = CStatus.waiting →
      blockedCount s.readers = n →
      ∃ sf, Relation.ReflTransGen Step s sf ∧ sf.closer = CStatus.done := by
  intro n
  induction n with
  | zero =>
    intro s hinv hw hb
    refine ⟨⟨s.ch, s.readers, CStatus.done⟩, Relation.ReflTransGen.single ?_, rfl⟩
    have hc : s.ch.readerThreadCount ≤ 0 := by rw [hinv.count, hb]; simp
    exact Step.closeFin s hw hc
  | succ n ih =>
    intro s hinv hw hb
    have hpos : 0 < List.countP RStatus.isBlocked s.readers := by
      rw [show List.countP RStatus.isBlocked s.readers = blockedCount s.readers from rfl, hb]
      exact Nat.succ_pos n
    obtain ⟨a, ha, hpa⟩ := List.countP_pos_iff.mp hpos
    have hab : a = RStatus.blocked := by
      cases a with
      | blocked => rfl
      | ret v ok => exact absurd hpa (by simp [RStatus.isBlocked])
    obtain ⟨i, hlt, hgi⟩ := List.mem_iff_getElem.mp ha
    have hi? : s.readers[i]? = some RStatus.blocked := by
      rw [List.getElem?_eq_getElem hlt, hgi, hab]
    have hstep := Step.wakeShut s i hi? hinv.shut
    have hinv' := Inv.step hinv hstep
    obtain ⟨hset, _⟩ := blockedCount_set_ret s.readers i (default : T) false hi?
    have hb' : blockedCount (s.readers.set i (RStatus.ret default false)) = n := by
      rw [hset, hb]
      omega
    obtain ⟨sf, hrun, hdone⟩ := ih _ hinv' hw hb'
    exact ⟨sf, Relation.ReflTransGen.head hstep hrun, hdone⟩

end util

namespace logger

/-- `logger::LOGLEVEL` (shared/logger/logger.hpp): ERROR = 1, WARN = 2, INFO = 3. -/
inductive LOGLEVEL where
  | ERROR
  | WARN
  | INFO
deriving Repr, DecidableEq

/-- The numeric enumerator values of the C++ `LOGLEVEL`, used by the `>`
comparisons in `LogWarn`/`LogInfo`. -/
def LOGLEVEL.val : LOGLEVEL → Int
  | LOGLEVEL.ERROR => 1
  | LOGLEVEL.WARN => 2
  | LOGLEVEL.INFO => 3

/-- `logger::LogMessage`: the record pushed through the channel. -/
structure LogMessage where
  message : String
  debuginfo : String
  loglevel : LOGLEVEL
deriving Repr, DecidableEq

/-- Default value for `LogMessage()` returned by a failed `get`: both strings
value-initialize to empty (the C++ enum value-initializes to 0, outside the
named enumerators; the value is only produced together with `ok = false` and
never inspected, so any placeholder level is adequate). -/
instance : Inhabited LogMessage :=
  ⟨{ message := "", debuginfo := "", loglevel := LOGLEVEL.ERROR }⟩

/-- The configuration fields a `Logger` captures at construction. -/
structure LoggerCfg where
  logLevel : LOGLEVEL
  logToStd : Bool
  logDebug : Bool

/-- The constructor's threshold computation: `logChanThreshold =
logQueueThreshold / 2` (C++ `int` division, truncation). -/
def mkLogChanThreshold (logQueueThreshold : Int) : Int :=
  Int.tdiv logQueueThreshold 2

/-- `Logger::getDebugInfo`: the formatted caller-location block. -/
def getDebugInfo (FILE : String) (LINE : Int) : String :=
  "[ RUNTIME INFORMATION ]:\n" ++
    ("|-[ LOG CALLER STACK ]: Line (" ++ toString LINE ++ ") File (" ++ FILE ++ ")\n")

/-- `Logger::LogError`: capture debug info when `logDebug` is set, then push an
ERROR record; there is no level check. -/
def Logger.LogError (cfg : LoggerCfg) (msg FILE : String) (LINE : Int)
    (c : util.chan LogMessage) : util.chan LogMessage :=
  let debuginfo := if cfg.logDebug then getDebugInfo FILE LINE else ""
  util.chan.push c { message := msg, debuginfo := debuginfo, loglevel := LOGLEVEL.ERROR }

/-- `Logger::LogWarn`: only when `logLevel > ERROR`, capture debug info and
push a WARN record; otherwise the call does nothing. -/
def Logger.LogWarn (cfg : LoggerCfg) (msg FILE : String) (LINE : Int)
    (c : util.chan LogMessage) : util.chan LogMessage :=
  if cfg.logLevel.val > LOGLEVEL.ERROR.val then
    let debuginfo := if cfg.logDebug then getDebugInfo FILE LINE else ""
    util.chan.push c { message := msg, debuginfo := debuginfo, loglevel := LOGLEVEL.WARN }
  else c

/-- `Logger::LogInfo`: only when `logLevel > WARN`, capture debug info and push
an INFO record; otherwise the call does nothing. -/
def Logger.LogInfo (cfg : LoggerCfg) (msg FILE : String) (LINE : Int)
    (c : util.chan LogMessage) : util.chan LogMessage :=
  if cfg.logLevel.val > LOGLEVEL.WARN.val then
    let debuginfo := if cfg.logDebug then getDebugInfo FILE LINE else ""
    util.chan.push c { message := msg, debuginfo := debuginfo, loglevel := LOGLEVEL.INFO }
  else c

/-- The `__FILE__` of the worker's synthesized warning in `startLogWorker`. -/
def workerFILE : String := "shared/logger/logger.hpp"

/-- The `__LINE__` of the worker's synthesized warning in `startLogWorker`. -/
def workerLINE : Int := 222

/-- The WARN record the worker synthesizes under queue pressure; its
`getDebugInfo(__FILE__, __LINE__)` is taken unconditionally, independent of the
`logDebug` flag. -/
def pressureMessage : LogMessage :=
  { message := "Log Queue is under high pressure!"
    debuginfo := getDebugInfo workerFILE workerLINE
    loglevel := LOGLEVEL.WARN }

/-- The worker loop of `Logger::startLogWorker`, as the sequence of records it
hands to the private `log` routine (file writes), in write order: repeatedly
`get()`; on `ok = true`, first write the synthesized pressure warning if
`size() > logChanThreshold`, then write the dequeued record; on `ok = false`
(channel closed) exit.  `fuel` bounds the number of iterations unrolled; a
`get` that would suspend ends the unrolling with no further write.  Note the
loop never consults the configured `logLevel`: it calls `log` directly. -/
def Logger.logWorker (logChanThreshold : Int) : Nat → util.chan LogMessage → List LogMessage
  | 0, _ => []
  | fuel + 1, c =>
    match util.chan.get c with
    | (util.GetOutcome.ret msg true, c1) =>
      (if util.chan.size c1 > logChanThreshold then [pressureMessage] else []) ++
        msg :: Logger.logWorker logChanThreshold fuel c1
    | (util.GetOutcome.ret _ false, _) => []
    | (util.GetOutcome.block, _) => []

/-- The level tag written by the C++ `Logger::log` switch. -/
def cppLevelTag : LOGLEVEL → String
  | LOGLEVEL.ERROR => "[ ERROR ]:\n"
  | LOGLEVEL.WARN => "[ WARN ]:\n"
  | LOGLEVEL.INFO => "[ INFO ]:\n"

/-- The level tag written by the Go `Logger.log` switch (logger.go). -/
def goLevelTag : LOGLEVEL → String
  | LOGLEVEL.ERROR => "[ ERROR ]:\n"
  | LOGLEVEL.WARN => "[ WARNING ]:\n"
  | LOGLEVEL.INFO => "[ INFORMATION ]:\n"

/-- The characters the C++ `Logger::log` emits for one record: the timestamp
prefix (`put_time`, runtime-dependent, passed in as `ts`), the bracketed level
tag, the message, a newline, the debug-info block, and the newline appended by
`endl`. -/
def cppLogRender (ts : String) (m : LogMessage) : List Char :=
  ts.data ++ (cppLevelTag m.loglevel).data ++ m.message.data ++ ['\n'] ++
    m.debuginfo.data ++ ['\n']

/-- The characters the Go `Logger.log` emits for one record: the timestamp
prefix (`time.Now().Format`, passed in as `ts`), the bracketed level tag, the
message, a newline, the debug-info block, and a final newline. -/
def goLogRender (ts : String) (m : LogMessage) : List Char :=
  ts.data ++ (goLevelTag m.loglevel).data ++ m.message.data ++ ['\n'] ++
    m.debuginfo.data ++ ['\n']

/-- `sub` occurs contiguously inside the emitted character sequence `s`. -/
def strContains (s : List Char) (sub : String) : Prop :=
  sub.data <:+: s

end logger

namespace util

/-- Pushing onto an open channel appends the values, in order, to the tail. -/
theorem chan.pushAll_open {T : Type} (vals : List T) :
    ∀ (q : List T) (r0 : Int),
      chan.pushAll ⟨q, false, r0⟩ vals = ⟨q ++ vals, false, r0⟩ := by
  induction vals with
  | nil => intro q r0; simp [chan.pushAll]
  | cons v vs ih =>
    intro q r0
    have hpush : chan.push ⟨q, false, r0⟩ v = ⟨q ++ [v], false, r0⟩ := by
      simp [chan.push]
    show chan.pushAll (chan.push ⟨q, false, r0⟩ v) vs = _
    rw [hpush, ih (q ++ [v]) r0, List.append_assoc, List.singleton_append]

/-- Consecutive `get` calls on an open channel holding queue `q` return exactly
the elements of `q`, front first, each with `ok = true`, and empty the queue. -/
theorem chan.getN_open {T : Type} [Inhabited T] (q : List T) :
    ∀ r0 : Int,
      chan.getN q.length ⟨q, false, r0⟩ =
        (q.map (fun v => (v, true)), ⟨[], false, r0⟩) := by
  induction q with
  | nil => intro r0; simp [chan.getN]
  | cons v vs ih =>
    intro r0
    show chan.getN (vs.length + 1) _ = _
    simp [chan.getN, chan.get, ih r0]

/-- `push` on a shut channel is the identity. -/
theorem chan.push_shut {T : Type} (c : chan T) (v : T) (h : c.isChanShut = true) :
    chan.push c v = c := by
  simp [chan.push, h]

/-- `pushAll` on a shut channel is the identity. -/
theorem chan.pushAll_shut {T : Type} (vals : List T) :
    ∀ c : chan T, c.isChanShut = true → chan.pushAll c vals = c := by
  induction vals with
  | nil => intro c h; simp [chan.pushAll]
  | cons v vs ih =>
    intro c h
    show chan.pushAll (chan.push c v) vs = c
    rw [chan.push_shut c v h]
    exact ih c h

/-- Every `get` on a shut channel returns `(T(), false)` and changes nothing. -/
theorem chan.getN_shut {T : Type} [Inhabited T] (n : Nat) (c : chan T)
    (h : c.isChanShut = true) :
    chan.getN n c = (List.replicate n ((default : T), false), c) := by
  induction n with
  | zero => simp [chan.getN]
  | succ n ih =>
    have hget : chan.get c = (GetOutcome.ret default false, c) := by
      simp [chan.get, h]
    simp [chan.getN, hget, ih, List.replicate_succ]

/-- No operation resets the closed flag, and only `close` sets it. -/
theorem chan.applyOp_shut {T : Type} [Inhabited T] (c : chan T) (op : Op T) :
    (chan.applyOp c op).isChanShut = c.isChanShut ∨ op = Op.close := by
  cases op with
  | push v =>
    left
    by_cases h : c.isChanShut <;> simp [chan.applyOp, chan.push, h]
  | get =>
    left
    by_cases h : c.isChanShut
    · simp [chan.applyOp, chan.get, h]
    · cases hq : c.chanQueue <;> simp [chan.applyOp, chan.get, h, hq]
  | close => right; rfl
  | size => left; rfl
  | isclosed => left; rfl

/-- The closed flag survives any sequence of operations. -/
theorem chan.runOps_shut {T : Type} [Inhabited T] (ops : List (Op T)) :
    ∀ c : chan T, c.isChanShut = true → (chan.runOps c ops).isChanShut = true := by
  induction ops with
  | nil => intro c h; exact h
  | cons op ops ih =>
    intro c h
    show (chan.runOps (chan.applyOp c op) ops).isChanShut = true
    apply ih
    rcases chan.applyOp_shut c op with heq | hcl
    · rw [heq]; exact h
    · subst hcl
      simp [chan.applyOp, chan.close, h]

/-- A channel can only become closed through a `close` call. -/
theorem chan.runOps_shut_source {T : Type} [Inhabited T] (ops : List (Op T)) :
    ∀ c : chan T, (chan.runOps c ops).isChanShut = true →
      c.isChanShut = true ∨ Op.close ∈ ops := by
  induction ops with
  | nil => intro c h; exact Or.inl h
  | cons op ops ih =>
    intro c h
    rcases ih (chan.applyOp c op) h with h1 | h2
    · rcases chan.applyOp_shut c op with heq | hcl
      · exact Or.inl (heq ▸ h1)
      · exact Or.inr (by simp [hcl])
    · exact Or.inr (List.mem_cons_of_mem _ h2)

end util

namespace logger

/-- The worker writes every record it dequeues: with enough fuel, the records
queued on an open channel appear in order among the worker's writes (possibly
interleaved with synthesized pressure warnings). -/
theorem Logger.logWorker_writes_queue (th : Int) :
    ∀ (q : List LogMessage) (fuel : Nat) (r0 : Int), q.length ≤ fuel →
      q.Sublist (Logger.logWorker th fuel (⟨q, false, r0⟩ : util.chan LogMessage)) := by
  intro q
  induction q with
  | nil => intro fuel r0 h; exact List.nil_sublist _
  | cons m rest ih =>
    intro fuel r0 h
    cases fuel with
    | zero => simp at h
    | succ fuel =>
      have hget : util.chan.get (⟨m :: rest, false, r0⟩ : util.chan LogMessage) =
          (util.GetOutcome.ret m true, ⟨rest, false, r0⟩) := by
        simp [util.chan.get]
      have hsub := ih fuel r0 (Nat.le_of_succ_le_succ h)
      have h1 : (m :: rest).Sublist
          (m :: Logger.logWorker th fuel (⟨rest, false, r0⟩ : util.chan LogMessage)) :=
        List.Sublist.cons₂ m hsub
      have h2 : (m :: Logger.logWorker th fuel (⟨rest, false, r0⟩ : util.chan LogMessage)).Sublist
          ((if util.chan.size (⟨rest, false, r0⟩ : util.chan LogMessage) > th
              then [pressureMessage] else []) ++
            m :: Logger.logWorker th fuel (⟨rest, false, r0⟩ : util.chan LogMessage)) :=
        List.sublist_append_right _ _
      have hstep : Logger.logWorker th (fuel + 1) (⟨m :: rest, false, r0⟩ : util.chan LogMessage) =
          (if util.chan.size (⟨rest, false, r0⟩ : util.chan LogMessage) > th
              then [pressureMessage] else []) ++
            m :: Logger.logWorker th fuel (⟨rest, false, r0⟩ : util.chan LogMessage) := by
        rw [Logger.logWorker, hget]
      rw [hstep]
      exact h1.trans h2

/-- A chunk written between a prefix and a suffix occurs in the output. -/
theorem strContains_of_split (s pre post : List Char) (sub : String)
    (h : s = pre ++ sub.data ++ post) : strContains s sub := by
  rw [strContains, h]
  exact List.infix_append pre sub.data post

end logger

/-- C3: for every sequence of N pushes followed by N receives on a single
channel with a single consumer, each pushed item is returned exactly once, in
push order (FIFO): the N receives return exactly the pushed list, each with
`ok = true` (so no item is delivered to more than one receive call), and the
channel ends empty. -/
theorem chan_fifo_push_order {T : Type} [Inhabited T] (vals : List T) :
    util.chan.getN vals.length (util.chan.pushAll (util.chan.new T) vals) =
      (vals.map (fun v => (v, true)), util.chan.new T) := by
  have hpush := util.chan.pushAll_open vals [] 0
  rw [util.chan.new, hpush, List.nil_append]
  exact util.chan.getN_open vals 0

/-- C4: after `close()` returns, any number of subsequent `push()` calls are
silent no-ops: they leave the channel state unchanged, `size()` stays 0, and
every later receive (in any number) still returns `(T(), false)` — pushes
after close never resurrect an `ok = true` receive. -/
theorem chan_push_after_close_noop {T : Type} [Inhabited T] (c : util.chan T)
    (vals : List T) (n : Nat) :
    util.chan.pushAll (util.chan.close c) vals = util.chan.close c ∧
    util.chan.size (util.chan.close c) = 0 ∧
    util.chan.getN n (util.chan.pushAll (util.chan.close c) vals) =
      (List.replicate n ((default : T), false), util.chan.close c) := by
  have hshut : (util.chan.close c).isChanShut = true := by
    by_cases h : c.isChanShut <;> simp [util.chan.close, h]
  refine ⟨util.chan.pushAll_shut vals _ hshut, ?_, ?_⟩
  · simp [util.chan.size, hshut]
  · rw [util.chan.pushAll_shut vals _ hshut]
    exact util.chan.getN_shut n _ hshut

/-- C9: the channel's closed flag is monotonic: once true it survives every
further operation (push, get, size, isclosed, close never reset it), it can
only become true through a `close` call, and a second `close` on an
already-closed channel is a no-op. -/
theorem chan_closed_monotonic {T : Type} [Inhabited T] (c : util.chan T)
    (ops : List (util.Op T)) :
    (c.isChanShut = true → (util.chan.runOps c ops).isChanShut = true) ∧
    ((util.chan.runOps c ops).isChanShut = true →
      c.isChanShut = true ∨ util.Op.close ∈ ops) ∧
    util.chan.close (util.chan.close c) = util.chan.close c := by
  refine ⟨fun h => util.chan.runOps_shut ops c h,
    fun h => util.chan.runOps_shut_source ops c h, ?_⟩
  by_cases h : c.isChanShut
  · simp [util.chan.close, h]
  · simp [util.chan.close, h]

/-- C1 fails on the code: `chan::get` returns `ok = false` as soon as
`isChanShut` is set, even while records are still queued — there is no
"closed and drained" condition.  Concretely: one record is pushed and `close`
runs before the worker dequeues it (the destructor's `closeLogWorker` path);
the worker's next `get` then yields `ok = false` with the record still in the
queue, the worker exits, and the worker's write sequence is empty, so the
record never reaches the log file although `shutdown()` has returned. -/
theorem shutdown_loses_queued_record :
    util.chan.get (util.chan.close (util.chan.push (util.chan.new logger.LogMessage)
        { message := "record", debuginfo := "", loglevel := logger.LOGLEVEL.ERROR })) =
      (util.GetOutcome.ret default false,
        util.chan.close (util.chan.push (util.chan.new logger.LogMessage)
          { message := "record", debuginfo := "", loglevel := logger.LOGLEVEL.ERROR })) ∧
    (util.chan.close (util.chan.push (util.chan.new logger.LogMessage)
        { message := "record", debuginfo := "", loglevel := logger.LOGLEVEL.ERROR })).chanQueue =
      [{ message := "record", debuginfo := "", loglevel := logger.LOGLEVEL.ERROR }] ∧
    logger.Logger.logWorker 50 1000 (util.chan.close (util.chan.push
        (util.chan.new logger.LogMessage)
        { message := "record", debuginfo := "", loglevel := logger.LOGLEVEL.ERROR })) = [] :=
  ⟨rfl, rfl, rfl⟩

/-- C2: start from the instant `close()` has set `isChanShut` and called
`notify_all` while K readers are blocked in `receive()` (waiting-reader count
K, arbitrary residual queue `q`).  Then (1) an execution exists in which every
one of the K blocked receivers returns `(T(), false)` and `close` returns with
the waiting-reader count at zero; (2) in every execution, once `close` has
returned, all readers have returned `ok = false` and the count has reached
zero — `close` returns only after all K receivers have; and (3) a receiver
that has returned keeps its result and is never woken again, so each blocked
receiver is woken exactly once. -/
theorem chan_close_wakes_all_readers {T : Type} [Inhabited T] (K : Nat) (q : List T) :
    (∃ sf : util.Sys T,
        Relation.ReflTransGen util.Step
          ⟨⟨q, true, (K : Int)⟩, List.replicate K util.RStatus.blocked,
            util.CStatus.waiting⟩ sf ∧
        sf.closer = util.CStatus.done ∧
        sf.readers = List.replicate K (util.RStatus.ret (default : T) false) ∧
        sf.ch.readerThreadCount = 0) ∧
    (∀ s' : util.Sys T,
        Relation.ReflTransGen util.Step
          ⟨⟨q, true, (K : Int)⟩, List.replicate K util.RStatus.blocked,
            util.CStatus.waiting⟩ s' →
        s'.closer = util.CStatus.done →
        (∀ r ∈ s'.readers, r = util.RStatus.ret (default : T) false) ∧
          s'.ch.readerThreadCount = 0) ∧
    (∀ s' s'' : util.Sys T,
        util.Step s' s'' →
        ∀ (i : Nat) (v : T) (ok : Bool),
          s'.readers[i]? = some (util.RStatus.ret v ok) →
          s''.readers[i]? = some (util.RStatus.ret v ok)) := by
  have hbc : util.blockedCount (List.replicate K (util.RStatus.blocked : util.RStatus T)) = K := by
    rw [util.blockedCount]
    rw [List.countP_eq_length.mpr (fun a ha => by
      rw [List.eq_of_mem_replicate ha]; rfl)]
    exact List.length_replicate K _
  have hinv0 : util.Inv (⟨⟨q, true, (K : Int)⟩, List.replicate K util.RStatus.blocked,
      util.CStatus.waiting⟩ : util.Sys T) := by
    refine ⟨rfl, ?_, ?_, ?_⟩
    · show (K : Int) = _
      rw [hbc]
    · intro r hr
      exact Or.inl (List.eq_of_mem_replicate hr)
    · intro h
      exact absurd h (by simp)
  have hsafety : ∀ s' : util.Sys T,
      Relation.ReflTransGen util.Step
        ⟨⟨q, true, (K : Int)⟩, List.replicate K util.RStatus.blocked,
          util.CStatus.waiting⟩ s' →
      s'.closer = util.CStatus.done →
      (∀ r ∈ s'.readers, r = util.RStatus.ret (default : T) false) ∧
        s'.ch.readerThreadCount = 0 := by
    intro s' hreach hdone
    have hinv' := util.Inv.reach hinv0 hreach
    have hle := hinv'.closerDone hdone
    have hcnt := hinv'.count
    have hzero : util.blockedCount s'.readers = 0 := by omega
    have hnoblocked := List.countP_eq_zero.mp hzero
    constructor
    · intro r hr
      rcases hinv'.rstat r hr with hb | hret
      · exact absurd (by rw [hb]; rfl) (hnoblocked r hr)
      · exact hret
    · omega
  refine ⟨?_, hsafety, ?_⟩
  · obtain ⟨sf, hrun, hdone⟩ :=
      util.exists_done_run (util.blockedCount (List.replicate K
        (util.RStatus.blocked : util.RStatus T)))
        ⟨⟨q, true, (K : Int)⟩, List.replicate K util.RStatus.blocked,
          util.CStatus.waiting⟩ hinv0 rfl rfl
    obtain ⟨hall, hcnt⟩ := hsafety sf hrun hdone
    have hlen : sf.readers.length = K := by
      rw [util.reach_readers_length hrun]
      exact List.length_replicate K _
    exact ⟨sf, hrun, hdone, List.eq_replicate_iff.mpr ⟨hlen, hall⟩, hcnt⟩
  · intro s' s'' hstep i v ok hri
    exact util.Step.ret_stable hstep i v ok hri

/-- C5: with `min_level = WARN`: `LogInfo` never pushes a record — the channel
is untouched, so an info call never results in a write; `LogWarn` and
`LogError` each enqueue their record and the worker writes it to the file; and
`LogError` enqueues under every configuration (ERROR is never suppressed). -/
theorem logger_level_gating (cfg : logger.LoggerCfg) (msg FILE : String) (LINE : Int)
    (th : Int) (hlvl : cfg.logLevel = logger.LOGLEVEL.WARN) :
    (∀ c : util.chan logger.LogMessage, logger.Logger.LogInfo cfg msg FILE LINE c = c) ∧
    (∃ wrec : logger.LogMessage, wrec.message = msg ∧
      wrec.loglevel = logger.LOGLEVEL.WARN ∧
      wrec ∈ logger.Logger.logWorker th 1
        (logger.Logger.LogWarn cfg msg FILE LINE (util.chan.new logger.LogMessage))) ∧
    (∀ cfg' : logger.LoggerCfg, ∃ erec : logger.LogMessage, erec.message = msg ∧
      erec.loglevel = logger.LOGLEVEL.ERROR ∧
      erec ∈ logger.Logger.logWorker th 1
        (logger.Logger.LogError cfg' msg FILE LINE (util.chan.new logger.LogMessage))) := by
  refine ⟨?_, ?_, ?_⟩
  · intro c
    simp [logger.Logger.LogInfo, hlvl, logger.LOGLEVEL.val]
  · refine ⟨⟨msg, if cfg.logDebug then logger.getDebugInfo FILE LINE else "",
      logger.LOGLEVEL.WARN⟩, rfl, rfl, ?_⟩
    have hch : logger.Logger.LogWarn cfg msg FILE LINE (util.chan.new logger.LogMessage) =
        ⟨[⟨msg, if cfg.logDebug then logger.getDebugInfo FILE LINE else "",
          logger.LOGLEVEL.WARN⟩], false, 0⟩ := by
      simp [logger.Logger.LogWarn, hlvl, logger.LOGLEVEL.val, util.chan.push, util.chan.new]
    rw [hch]
    exact (logger.Logger.logWorker_writes_queue th [_] 1 0 (by simp)).subset (by simp)
  · intro cfg'
    refine ⟨⟨msg, if cfg'.logDebug then logger.getDebugInfo FILE LINE else "",
      logger.LOGLEVEL.ERROR⟩, rfl, rfl, ?_⟩
    have hch : logger.Logger.LogError cfg' msg FILE LINE (util.chan.new logger.LogMessage) =
        ⟨[⟨msg, if cfg'.logDebug then logger.getDebugInfo FILE LINE else "",
          logger.LOGLEVEL.ERROR⟩], false, 0⟩ := by
      simp [logger.Logger.LogError, util.chan.push, util.chan.new]
    rw [hch]
    exact (logger.Logger.logWorker_writes_queue th [_] 1 0 (by simp)).subset (by simp)

/-- C5 witness: the hypotheses discharged at `min_level = WARN`, message "x",
threshold 50: the warn record is among the worker's writes. -/
theorem logger_level_gating_witness :
    ∃ wrec : logger.LogMessage, wrec.message = "x" ∧
      wrec.loglevel = logger.LOGLEVEL.WARN ∧
      wrec ∈ logger.Logger.logWorker 50 1
        (logger.Logger.LogWarn ⟨logger.LOGLEVEL.WARN, false, false⟩ "x" "f" 1
          (util.chan.new logger.LogMessage)) :=
  (logger_level_gating ⟨logger.LOGLEVEL.WARN, false, false⟩ "x" "f" 1 50 rfl).2.1

/-- C6 (amended): the constructor halves `logQueueThreshold`, so the worker
emits the synthesized "log queue is under high pressure" WARN record exactly
when the `size()` observed after dequeuing exceeds HALF the positive integer
passed at construction (truncating division), and it writes that warning
before writing the dequeued record. -/
theorem logger_pressure_at_half_threshold (logQueueThreshold : Int)
    (m : logger.LogMessage) (rest : List logger.LogMessage) (r0 : Int) (fuel : Nat) :
    logger.Logger.logWorker (logger.mkLogChanThreshold logQueueThreshold) (fuel + 1)
        (⟨m :: rest, false, r0⟩ : util.chan logger.LogMessage) =
      (if (rest.length : Int) > Int.tdiv logQueueThreshold 2
        then [logger.pressureMessage] else []) ++
        m :: logger.Logger.logWorker (logger.mkLogChanThreshold logQueueThreshold) fuel
          (⟨rest, false, r0⟩ : util.chan logger.LogMessage) := by
  have hget : util.chan.get (⟨m :: rest, false, r0⟩ : util.chan logger.LogMessage) =
      (util.GetOutcome.ret m true, ⟨rest, false, r0⟩) := by
    simp [util.chan.get]
  rw [logger.Logger.logWorker, hget]
  simp [util.chan.size, logger.mkLogChanThreshold]

/-- C6 counterexample: with `queue_warn_threshold = 3` and three queued
records, the size observed after the first dequeue is 2, which does not exceed
3 — by the claim no warning should be emitted — yet the worker's first write
is the pressure warning (the code compares against 3 / 2 = 1), and that
warning is not the dequeued record. -/
theorem logger_pressure_below_constructor_threshold :
    (logger.Logger.logWorker (logger.mkLogChanThreshold 3) 3
        (⟨[⟨"a", "", logger.LOGLEVEL.INFO⟩, ⟨"b", "", logger.LOGLEVEL.INFO⟩,
          ⟨"c", "", logger.LOGLEVEL.INFO⟩], false, 0⟩ : util.chan logger.LogMessage)).head? =
      some logger.pressureMessage ∧
    logger.pressureMessage.message ≠ "a" ∧
    ¬ ((2 : Int) > 3) := by
  exact ⟨rfl, by decide, by decide⟩

/-- A substring of an embedded block also occurs in the whole output. -/
theorem strContains_of_block {s b : List Char} (sub : String)
    (h1 : logger.strContains b sub) (h2 : b <:+: s) : logger.strContains s sub :=
  List.IsInfix.trans h1 h2

/-- The debug-info block contains the caller's line number and file path. -/
theorem getDebugInfo_contains_line_file (f : String) (l : Int) :
    logger.strContains (logger.getDebugInfo f l).data (toString l) ∧
    logger.strContains (logger.getDebugInfo f l).data f := by
  constructor
  · exact logger.strContains_of_split _
      ("[ RUNTIME INFORMATION ]:\n".data ++ "|-[ LOG CALLER STACK ]: Line (".data)
      (") File (".data ++ f.data ++ ")\n".data) (toString l)
      (by simp [logger.getDebugInfo, String.data_append, List.append_assoc])
  · exact logger.strContains_of_split _
      ("[ RUNTIME INFORMATION ]:\n".data ++ "|-[ LOG CALLER STACK ]: Line (".data ++
        (toString l).data ++ ") File (".data)
      (")\n".data) f
      (by simp [logger.getDebugInfo, String.data_append, List.append_assoc])

/-- C7 (amended): every emitted log line contains the timestamp, the bracketed
level tag — `ERROR`/`WARNING`/`INFORMATION` in the Go logger's formatter,
while the C++ formatter writes `ERROR`/`WARN`/`INFO` — the message text, and,
when the record carries a captured debug block, that block's originating line
number and file path. -/
theorem log_line_format (ts : String) (m : logger.LogMessage) :
    logger.strContains (logger.goLogRender ts m) ts ∧
    logger.strContains (logger.goLogRender ts m) (logger.goLevelTag m.loglevel) ∧
    logger.strContains (logger.goLogRender ts m) m.message ∧
    logger.strContains (logger.cppLogRender ts m) ts ∧
    logger.strContains (logger.cppLogRender ts m) (logger.cppLevelTag m.loglevel) ∧
    logger.strContains (logger.cppLogRender ts m) m.message ∧
    (∀ (f : String) (l : Int), m.debuginfo = logger.getDebugInfo f l →
      logger.strContains (logger.goLogRender ts m) (toString l) ∧
      logger.strContains (logger.goLogRender ts m) f ∧
      logger.strContains (logger.cppLogRender ts m) (toString l) ∧
      logger.strContains (logger.cppLogRender ts m) f) := by
  have hgodbg : m.debuginfo.data <:+: logger.goLogRender ts m := by
    have := List.infix_append
      (ts.data ++ (logger.goLevelTag m.loglevel).data ++ m.message.data ++ ['\n'])
      m.debuginfo.data (['\n'])
    simpa [logger.goLogRender, List.append_assoc] using this
  have hcppdbg : m.debuginfo.data <:+: logger.cppLogRender ts m := by
    have := List.infix_append
      (ts.data ++ (logger.cppLevelTag m.loglevel).data ++ m.message.data ++ ['\n'])
      m.debuginfo.data (['\n'])
    simpa [logger.cppLogRender, List.append_assoc] using this
  refine ⟨?_, ?_, ?_, ?_, ?_, ?_, ?_⟩
  · exact logger.strContains_of_split _ []
      ((logger.goLevelTag m.loglevel).data ++ m.message.data ++ ['\n'] ++
        m.debuginfo.data ++ ['\n']) ts
      (by simp [logger.goLogRender, List.append_assoc])
  · exact logger.strContains_of_split _ ts.data
      (m.message.data ++ ['\n'] ++ m.debuginfo.data ++ ['\n'])
      (logger.goLevelTag m.loglevel)
      (by simp [logger.goLogRender, List.append_assoc])
  · exact logger.strContains_of_split _
      (ts.data ++ (logger.goLevelTag m.loglevel).data)
      (['\n'] ++ m.debuginfo.data ++ ['\n']) m.message
      (by simp [logger.goLogRender, List.append_assoc])
  · exact logger.strContains_of_split _ []
      ((logger.cppLevelTag m.loglevel).data ++ m.message.data ++ ['\n'] ++
        m.debuginfo.data ++ ['\n']) ts
      (by simp [logger.cppLogRender, List.append_assoc])
  · exact logger.strContains_of_split _ ts.data
      (m.message.data ++ ['\n'] ++ m.debuginfo.data ++ ['\n'])
      (logger.cppLevelTag m.loglevel)
      (by simp [logger.cppLogRender, List.append_assoc])
  · exact logger.strContains_of_split _
      (ts.data ++ (logger.cppLevelTag m.loglevel).data)
      (['\n'] ++ m.debuginfo.data ++ ['\n']) m.message
      (by simp [logger.cppLogRender, List.append_assoc])
  · intro f l h
    obtain ⟨hline, hfile⟩ := getDebugInfo_contains_line_file f l
    rw [← h] at hline hfile
    exact ⟨strContains_of_block _ hline hgodbg, strContains_of_block _ hfile hgodbg,
      strContains_of_block _ hline hcppdbg, strContains_of_block _ hfile hcppdbg⟩

/-- C7 counterexample: the C++ formatter's tag for a WARN record is
`[ WARN ]`, so the emitted line contains no `WARNING` substring (the claim's
tag set ERROR/WARNING/INFORMATION matches only the Go formatter). -/
theorem cpp_warn_tag_not_warning :
    ¬ logger.strContains
        (logger.cppLogRender "t" ⟨"x", "", logger.LOGLEVEL.WARN⟩) "WARNING" := by
  show ¬ ("WARNING".data <:+:
    logger.cppLogRender "t" ⟨"x", "", logger.LOGLEVEL.WARN⟩)
  decide

/-- C8 (amended): the log_* entry points populate the debug block exactly when
`debug_enabled` is set: every record they push carries `getDebugInfo FILE
LINE` when `logDebug` is true and an empty block when false (and a populated
block always contains the runtime-information header); the worker-synthesized
pressure warning, however, carries a populated debug block unconditionally,
so with debug disabled a written record can still contain a debug block. -/
theorem logger_debug_toggle (cfg : logger.LoggerCfg) (msg FILE : String) (LINE : Int)
    (q : List logger.LogMessage) (r0 : Int) :
    (∀ r ∈ (logger.Logger.LogError cfg msg FILE LINE ⟨q, false, r0⟩).chanQueue,
      r ∈ q ∨ r.debuginfo = (if cfg.logDebug then logger.getDebugInfo FILE LINE else "")) ∧
    (∀ r ∈ (logger.Logger.LogWarn cfg msg FILE LINE ⟨q, false, r0⟩).chanQueue,
      r ∈ q ∨ r.debuginfo = (if cfg.logDebug then logger.getDebugInfo FILE LINE else "")) ∧
    (∀ r ∈ (logger.Logger.LogInfo cfg msg FILE LINE ⟨q, false, r0⟩).chanQueue,
      r ∈ q ∨ r.debuginfo = (if cfg.logDebug then logger.getDebugInfo FILE LINE else "")) ∧
    logger.strContains (logger.getDebugInfo FILE LINE).data "[ RUNTIME INFORMATION ]" ∧
    logger.pressureMessage.debuginfo =
      logger.getDebugInfo logger.workerFILE logger.workerLINE := by
  have hsplit : "[ RUNTIME INFORMATION ]:\n".data =
      "[ RUNTIME INFORMATION ]".data ++ ":\n".data := by decide
  refine ⟨?_, ?_, ?_, ?_, rfl⟩
  · intro r hr
    rw [logger.Logger.LogError] at hr
    simp [util.chan.push] at hr
    rcases hr with hq | hnew
    · exact Or.inl hq
    · rw [hnew]; exact Or.inr rfl
  · intro r hr
    rw [logger.Logger.LogWarn] at hr
    by_cases hgate : cfg.logLevel.val > logger.LOGLEVEL.ERROR.val
    · simp [hgate, util.chan.push] at hr
      rcases hr with hq | hnew
      · exact Or.inl hq
      · rw [hnew]; exact Or.inr rfl
    · simp [hgate] at hr
      exact Or.inl hr
  · intro r hr
    rw [logger.Logger.LogInfo] at hr
    by_cases hgate : cfg.logLevel.val > logger.LOGLEVEL.WARN.val
    · simp [hgate, util.chan.push] at hr
      rcases hr with hq | hnew
      · exact Or.inl hq
      · rw [hnew]; exact Or.inr rfl
    · simp [hgate] at hr
      exact Or.inl hr
  · exact logger.strContains_of_split _ []
      (":\n".data ++ ("|-[ LOG CALLER STACK ]: Line (" ++ toString LINE ++
        ") File (" ++ FILE ++ ")\n").data)
      "[ RUNTIME INFORMATION ]"
      (by rw [logger.getDebugInfo, String.data_append, hsplit]; simp)

/-- C8 counterexample: with `debug_enabled = false` a record carrying a debug
block is still written: two records logged with debug disabled (both with
empty debug blocks, as the third conjunct computes) and `queue_warn_threshold
= 1` make the worker's first write the synthesized pressure warning, whose
debug block is populated. -/
theorem debug_block_written_with_debug_disabled :
    (logger.Logger.logWorker (logger.mkLogChanThreshold 1) 2
        (logger.Logger.LogError ⟨logger.LOGLEVEL.INFO, false, false⟩ "b" "f" 2
          (logger.Logger.LogError ⟨logger.LOGLEVEL.INFO, false, false⟩ "a" "f" 1
            (util.chan.new logger.LogMessage)))).head? = some logger.pressureMessage ∧
    logger.pressureMessage.debuginfo ≠ "" ∧
    ((logger.Logger.LogError ⟨logger.LOGLEVEL.INFO, false, false⟩ "b" "f" 2
        (logger.Logger.LogError ⟨logger.LOGLEVEL.INFO, false, false⟩ "a" "f" 1
          (util.chan.new logger.LogMessage))).chanQueue.all
      (fun r => r.debuginfo == "")) = true := by
  exact ⟨rfl, by decide, by decide⟩

/-- C10: the worker-synthesized pressure warning bypasses the `min_level`
gate: under the most restrictive configuration, `min_level = ERROR`, the
`LogWarn` entry point is a no-op, yet whenever the post-dequeue size check
triggers, the worker — which calls the internal `log` write routine directly
and never consults `logLevel` — writes the pressure warning, and does so
before the dequeued record. -/
theorem pressure_warning_bypasses_level_gate (cfg : logger.LoggerCfg)
    (msg FILE : String) (LINE : Int) (th : Int) (m : logger.LogMessage)
    (rest : List logger.LogMessage) (r0 : Int) (fuel : Nat)
    (hlvl : cfg.logLevel = logger.LOGLEVEL.ERROR)
    (htrig : (rest.length : Int) > th) :
    (∀ c : util.chan logger.LogMessage, logger.Logger.LogWarn cfg msg FILE LINE c = c) ∧
    logger.Logger.logWorker th (fuel + 1)
        (⟨m :: rest, false, r0⟩ : util.chan logger.LogMessage) =
      logger.pressureMessage :: m ::
        logger.Logger.logWorker th fuel (⟨rest, false, r0⟩ : util.chan logger.LogMessage) := by
  constructor
  · intro c
    simp [logger.Logger.LogWarn, hlvl, logger.LOGLEVEL.val]
  · have hget : util.chan.get (⟨m :: rest, false, r0⟩ : util.chan logger.LogMessage) =
        (util.GetOutcome.ret m true, ⟨rest, false, r0⟩) := by
      simp [util.chan.get]
    rw [logger.Logger.logWorker, hget]
    simp [util.chan.size, htrig]

/-- C10 witness: hypotheses discharged at `min_level = ERROR`, threshold 0 and
one further queued record (post-dequeue size 1 > 0). -/
theorem pressure_bypass_witness :
    (∀ c : util.chan logger.LogMessage,
      logger.Logger.LogWarn ⟨logger.LOGLEVEL.ERROR, false, false⟩ "w" "f" 1 c = c) ∧
    logger.Logger.logWorker 0 1
        (⟨[⟨"m", "", logger.LOGLEVEL.INFO⟩, ⟨"n", "", logger.LOGLEVEL.INFO⟩], false, 0⟩ :
          util.chan logger.LogMessage) =
      logger.pressureMessage :: ⟨"m", "", logger.LOGLEVEL.INFO⟩ ::
        logger.Logger.logWorker 0 0
          (⟨[⟨"n", "", logger.LOGLEVEL.INFO⟩], false, 0⟩ : util.chan logger.LogMessage) :=
  pressure_warning_bypasses_level_gate ⟨logger.LOGLEVEL.ERROR, false, false⟩ "w" "f" 1 0
    ⟨"m", "", logger.LOGLEVEL.INFO⟩ [⟨"n", "", logger.LOGLEVEL.INFO⟩] 0 0 rfl (by decide)
